import Mathlib

/- Verification development for the webcloner repository.

   Shallow embedding of the CSS relevance filter
   (src/backend/app/filter_css.py), the CSS inliner
   (src/backend/app/inline_css.py), and the section detector / URL
   normalizer (src/backend/section_processor.py).

   Python strings are modelled as lists of characters (`Str`); Python
   string find, split, strip, join, slicing and startswith become the
   corresponding list operations.  The identifier set that
   filter_css_from_html_and_css derives from the HTML via the external
   BeautifulSoup parser is taken as an explicit parameter
   (`html_selectors`); an empty HTML document yields the empty set. -/

abbrev Str := List Char

def lbrace : Char := Char.ofNat 123

def rbrace : Char := Char.ofNat 125

/-- ASCII whitespace as recognized by Python str.strip and regex \s
(space, tab, newline, carriage return, vertical tab, form feed). -/
def isSpaceChar (c : Char) : Bool :=
  c = ' ' || c = '\t' || c = '\n' || c = '\r' || c = Char.ofNat 11 || c = Char.ofNat 12

/-- ASCII word character, Python regex \w on this repository's ASCII inputs. -/
def isWordChar (c : Char) : Bool := c.isAlphanum || c = '_'

/-- Python str.strip(): drop whitespace from both ends. -/
def pstrip (s : Str) : Str :=
  ((s.dropWhile isSpaceChar).reverse.dropWhile isSpaceChar).reverse

/-- Python s.split(c) for a single-character separator: always returns at
least one (possibly empty) piece. -/
def splitOnChar (c : Char) : Str → List Str
  | [] => [[]]
  | x :: rest =>
    let r := splitOnChar c rest
    if x = c then [] :: r
    else
      match r with
      | [] => [[x]]
      | y :: ys => (x :: y) :: ys

/-- Python sep.join(pieces). -/
def joinSep (sep : Str) : List Str → Str
  | [] => []
  | [x] => x
  | x :: y :: rest => x ++ sep ++ joinSep sep (y :: rest)

/-- Python hay.find(needle): index of the first occurrence, none when the
needle does not occur (the source checks for -1). -/
def firstOccIdx (needle : Str) : Str → Option Nat
  | [] => if needle.isEmpty then some 0 else none
  | c :: rest =>
    if needle.isPrefixOf (c :: rest) then some 0
    else (firstOccIdx needle rest).map (· + 1)

/-- Python needle in hay. -/
def contains_sub (hay needle : Str) : Bool := (firstOccIdx needle hay).isSome

/-- Python hay.replace(pat, repl) for a nonempty pattern: replace every
non-overlapping occurrence, scanning left to right.  (The source only
replaces the nonempty literals "<head>" and "<html>".) -/
def replace_all (pat repl : Str) : Str → Str
  | [] => []
  | c :: rest =>
    if h : pat ≠ [] ∧ pat.isPrefixOf (c :: rest) then
      repl ++ replace_all pat repl ((c :: rest).drop pat.length)
    else
      c :: replace_all pat repl rest
termination_by s => s.length
decreasing_by
  · simp only [List.length_drop, List.length_cons]
    have hp : 0 < pat.length := List.length_pos.mpr h.1
    omega
  · simp

/- ------------------------------------------------------------------
   filter_css.py : filter_css_from_html_and_css
   ------------------------------------------------------------------ -/

/- The rule extraction `re.findall(r'([^{}]+)\s*\{[^}]*\}', css_content)`
   is modelled by a left-to-right scan: a maximal nonempty run of
   non-brace characters immediately followed by an opening brace, with
   some closing brace after it, yields the run as one captured rule;
   scanning resumes after that closing brace. -/

mutual

/-- Accumulating state of the rule scan: `run` is the reversed current run
of non-brace characters. -/
def css_scan_acc (run : Str) : Str → List Str
  | [] => []
  | c :: rest =>
    if c = lbrace then
      if run.isEmpty then css_scan_acc [] rest
      else css_scan_skip run.reverse rest
    else if c = rbrace then css_scan_acc [] rest
    else css_scan_acc (c :: run) rest

/-- Skipping state: inside `{[^}]*}`, waiting for the closing brace that
completes the match whose captured selector text is `cap`. -/
def css_scan_skip (cap : Str) : Str → List Str
  | [] => []
  | c :: rest =>
    if c = rbrace then cap :: css_scan_acc [] rest
    else css_scan_skip cap rest

end

/-- The list css_rules of captured selector texts (group 1 of the findall). -/
def find_css_rules (css : Str) : List Str := css_scan_acc [] css

/-- Characters kept by `re.sub(r'[^\w\s\-\.#\[\]=]', '', selector)`. -/
def keep_clean_char (c : Char) : Bool :=
  isWordChar c || isSpaceChar c || c = '-' || c = '.' || c = '#' ||
    c = '[' || c = ']' || c = '='

/-- clean_selector: strip the characters the cleaning regex removes, then
Python .strip(). -/
def clean_selector (s : Str) : Str := pstrip (s.filter keep_clean_char)

/-- The priority_selectors list of filter_css.py. -/
def priority_selectors : List Str :=
  ["body", "html", "*", "head", "meta", "title", "div", "span", "p",
   "h1", "h2", "h3", "h4", "h5", "h6", "a", "img", "ul", "ol", "li",
   "nav", "header", "footer", "main", "section", "article", "aside",
   "button", "input", "form", "label", "table", "tr", "td", "th"].map String.data

/-- The layout_patterns list of filter_css.py. -/
def layout_patterns : List Str :=
  ["container", "wrapper", "header", "footer", "nav", "menu",
   "button", "btn", "card", "grid", "flex", "row", "col", "sidebar",
   "content", "main", "hero", "banner", "section", "block", "page",
   "site", "web", "theme", "style", "layout", "design"].map String.data

/-- rule_selectors = [s.strip() for s in rule.split(',')]. -/
def rule_selectors (rule : Str) : List Str := (splitOnChar ',' rule).map pstrip

/-- The per-rule retention decision of filter_css_from_html_and_css:
a rule is kept when any of its comma-separated selectors, after cleaning,
matches the HTML identifier set, the priority list, the (dead, see below)
at-rule / pseudo-class check, a layout pattern, or the final length
fallback.  Note the at-rule / pseudo-class check operates on the cleaned
selector, from which the cleaning regex has already removed '@' and ':'. -/
def should_keep (html_selectors : List Str) (rule : Str) : Bool :=
  (rule_selectors rule).any fun selector =>
    let clean := clean_selector selector
    html_selectors.contains clean ||
    priority_selectors.contains clean ||
    ("@media".data).isPrefixOf clean ||
    ("@keyframes".data).isPrefixOf clean ||
    clean.contains ':' ||
    layout_patterns.any (fun p => contains_sub clean p) ||
    (clean.length > 2 && !(['_'].isPrefixOf clean))

/-- The brace-depth scan: starting at the found rule position, count
braces; the first closing brace that brings the counter to zero ends the
rule.  Returns the length of the complete rule (rule_end - rule_start),
or none when the loop ends without the counter reaching zero. -/
def brace_scan : Str → Int → Nat → Option Nat
  | [], _, _ => none
  | c :: rest, cnt, pos =>
    if c = lbrace then brace_scan rest (cnt + 1) (pos + 1)
    else if c = rbrace then
      if cnt - 1 = 0 then some (pos + 1) else brace_scan rest (cnt - 1) (pos + 1)
    else brace_scan rest cnt (pos + 1)

/-- Recover the complete original rule text: find the first occurrence of
the captured selector text in the CSS source, then brace-scan from there.
none models both find() == -1 and rule_end == rule_start (no append). -/
def complete_rule (css rule : Str) : Option Str :=
  match firstOccIdx rule css with
  | none => none
  | some i =>
    match brace_scan (css.drop i) 0 0 with
    | none => none
    | some k => some ((css.drop i).take k)

/-- filtered_rules: the complete texts of the kept rules, in rule order. -/
def kept_rules (html_selectors : List Str) (css : Str) : List Str :=
  (find_css_rules css).filterMap fun r =>
    if should_keep html_selectors r then complete_rule css r else none

/-- filter_css_from_html_and_css, with the BeautifulSoup-derived identifier
set passed explicitly.  Empty CSS returns "" at once; the kept complete
rules are joined with newlines and capped at 100 KB. -/
def filter_css_from_html_and_css (html_selectors : List Str) (css : Str) : Str :=
  if css.isEmpty then []
  else
    let joined := joinSep ['\n'] (kept_rules html_selectors css)
    if joined.length > 100000 then joined.take 100000 else joined

/- ------------------------------------------------------------------
   inline_css.py : inline_css
   ------------------------------------------------------------------ -/

/-- inline_css: empty HTML or empty CSS returns the HTML argument
unchanged; otherwise a style block is spliced into <head> (all
occurrences, via str.replace) or attached to <html>. -/
def inline_css (html css : Str) : Str :=
  if html.isEmpty || css.isEmpty then html
  else if contains_sub html ("<head>".data) then
    replace_all ("<head>".data)
      (("<head>\n<style>\n".data) ++ css ++ ("\n</style>".data)) html
  else
    replace_all ("<html>".data)
      (("<html>\n<head>\n<style>\n".data) ++ css ++ ("\n</style>\n</head>".data)) html

/- ------------------------------------------------------------------
   Lemmas about the filter
   ------------------------------------------------------------------ -/

/-- A complete rule recovered by the brace-depth scan is a contiguous
substring of the CSS source. -/
theorem complete_rule_infix {css rule sl : Str}
    (h : complete_rule css rule = some sl) : sl <:+: css := by
  unfold complete_rule at h
  split at h
  · exact absurd h (by simp)
  · split at h
    · exact absurd h (by simp)
    · simp only [Option.some.injEq] at h
      subst h
      exact ((List.take_prefix _ _).isInfix).trans ((List.drop_suffix _ _).isInfix)

/-- Every member of a joined list is a contiguous substring of the join. -/
theorem mem_joinSep_infix {sep : Str} {x : Str} :
    ∀ {l : List Str}, x ∈ l → x <:+: joinSep sep l := by
  intro l
  induction l with
  | nil => intro h; exact absurd h (by simp)
  | cons y ys ih =>
    intro h
    rcases List.mem_cons.mp h with h | h
    · subst h
      cases ys with
      | nil => exact List.infix_refl x
      | cons z zs =>
        show x <:+: x ++ sep ++ joinSep sep (z :: zs)
        exact ((List.prefix_append x sep).trans
          (List.prefix_append (x ++ sep) (joinSep sep (z :: zs)))).isInfix
    · cases ys with
      | nil => exact absurd h (by simp)
      | cons z zs =>
        show x <:+: y ++ sep ++ joinSep sep (z :: zs)
        exact (ih h).trans
          (List.suffix_append (y ++ sep) (joinSep sep (z :: zs))).isInfix

/- ------------------------------------------------------------------
   Claim theorems: C1, C3, C6, C10
   ------------------------------------------------------------------ -/

/-- C1: the claim states that every CSS rule whose selector is an at-rule
or contains a pseudo-class marker ':' is always retained.  The code
violates this: the at-rule / pseudo-class check tests the cleaned
selector, from which the cleaning regex has already removed '@' and ':',
so it can never fire.  At the failing input (empty HTML, CSS
":x{color:red}") the single rule, whose selector contains ':', is
dropped by every remaining condition and the filter returns "". -/
theorem c1_pseudo_class_rule_dropped :
    filter_css_from_html_and_css [] (":x\x7bcolor:red\x7d".data) = [] := by rfl

/-- C3 counterexample: the claim states that every rule whose selector is
a priority-listed tag (here 'body') present in the CSS, paired with HTML
containing that tag, survives filtering.  For CSS "p{a:body}body{x:y}"
the retention step locates the selector text "body" at its first
occurrence, inside the declaration of the earlier rule; the brace scan
started there never returns the counter to zero, so the body rule is
silently dropped: the output is exactly "p{a:body}". -/
theorem c3_counterexample :
    filter_css_from_html_and_css ["body".data]
        ("p\x7ba:body\x7dbody\x7bx:y\x7d".data) = "p\x7ba:body\x7d".data ∧
      ¬ ("body\x7bx:y\x7d".data <:+:
          filter_css_from_html_and_css ["body".data]
            ("p\x7ba:body\x7dbody\x7bx:y\x7d".data)) := by
  constructor
  · rfl
  · rw [show filter_css_from_html_and_css ["body".data]
        ("p\x7ba:body\x7dbody\x7bx:y\x7d".data) = "p\x7ba:body\x7d".data from rfl]
    decide

/-- C3 amended: a rule one of whose comma-separated selectors cleans to a
priority-listed tag that the HTML also contains is present in the output,
provided the retention step actually recovers the rule (the first
occurrence of the captured selector text heads a properly brace-closed
region) and the joined output is within the 100 KB cap. -/
theorem c3_priority_rule_retained
    (html_selectors : List Str) (css rule tag slice : Str)
    (hhtml : html_selectors.contains tag = true)
    (hprio : priority_selectors.contains tag = true)
    (hrule : rule ∈ find_css_rules css)
    (hsel : tag ∈ (rule_selectors rule).map clean_selector)
    (hcomp : complete_rule css rule = some slice)
    (hsize : (joinSep ['\n'] (kept_rules html_selectors css)).length ≤ 100000) :
    slice <:+: filter_css_from_html_and_css html_selectors css := by
  have hkeep : should_keep html_selectors rule = true := by
    obtain ⟨sel, hmem, hclean⟩ := List.mem_map.mp hsel
    refine List.any_eq_true.mpr ⟨sel, hmem, ?_⟩
    have hp2 : tag ∈ priority_selectors := by simpa using hprio
    simp only [hclean]
    simp
    tauto
  have hmem2 : slice ∈ kept_rules html_selectors css := by
    refine List.mem_filterMap.mpr ⟨rule, hrule, ?_⟩
    rw [if_pos (by exact_mod_cast hkeep)]
    exact hcomp
  have hinf : slice <:+: joinSep ['\n'] (kept_rules html_selectors css) :=
    mem_joinSep_infix hmem2
  have hcss : css ≠ [] := by
    intro hnil
    subst hnil
    exact absurd hrule (by simp [find_css_rules, css_scan_acc])
  unfold filter_css_from_html_and_css
  rw [if_neg (by simpa using hcss), if_neg (by omega)]
  exact hinf

/-- Witness for C3 amended at a concrete input. -/
theorem c3_priority_rule_retained_witness :
    "body\x7bcolor:red\x7d".data <:+:
      filter_css_from_html_and_css ["body".data] ("body\x7bcolor:red\x7d".data) :=
  c3_priority_rule_retained ["body".data] ("body\x7bcolor:red\x7d".data)
    ("body".data) ("body".data) ("body\x7bcolor:red\x7d".data)
    (by rfl) (by rfl) (by decide) (by decide) (by rfl) (by decide)

/-- C6 counterexample: the claim states the filter returns "" whenever
the HTML input is empty or the CSS input is empty.  With empty HTML but
nonempty CSS "div{color:red}" the rule is kept by the priority list and
the output is nonempty. -/
theorem c6_counterexample :
    filter_css_from_html_and_css [] ("div\x7bcolor:red\x7d".data) ≠ [] := by
  rw [show filter_css_from_html_and_css [] ("div\x7bcolor:red\x7d".data)
      = "div\x7bcolor:red\x7d".data from rfl]
  decide

/-- C6 amended: the filter returns "" whenever the CSS input is empty;
inline_css returns its HTML argument unchanged whenever either argument
is empty, hence an empty result exactly when the HTML is empty. -/
theorem c6_degenerate_inputs :
    (∀ html_selectors : List Str, filter_css_from_html_and_css html_selectors [] = []) ∧
    (∀ css : Str, inline_css [] css = []) ∧
    (∀ html : Str, inline_css html [] = html) := by
  refine ⟨fun _ => rfl, fun _ => rfl, fun html => ?_⟩
  unfold inline_css
  rw [if_pos (by simp)]

/-- C10: the filter output is a prefix of the newline-joined
concatenation of complete rule texts, each of which is recovered by the
find-then-brace-scan step and is a contiguous verbatim substring of the
input CSS; the filter never synthesizes CSS text. -/
theorem c10_output_verbatim (html_selectors : List Str) (css : Str) :
    ∃ slices : List Str,
      (∀ sl ∈ slices, (∃ r, complete_rule css r = some sl) ∧ sl <:+: css) ∧
      filter_css_from_html_and_css html_selectors css <+:
        joinSep ['\n'] slices := by
  by_cases hc : css.isEmpty
  · refine ⟨[], by simp, ?_⟩
    unfold filter_css_from_html_and_css
    rw [if_pos hc]
    exact List.nil_prefix
  · refine ⟨kept_rules html_selectors css, ?_, ?_⟩
    · intro sl hsl
      obtain ⟨r, _, hif⟩ := List.mem_filterMap.mp hsl
      by_cases hk : should_keep html_selectors r
      · rw [if_pos hk] at hif
        exact ⟨⟨r, hif⟩, complete_rule_infix hif⟩
      · rw [if_neg hk] at hif
        exact absurd hif (by simp)
    · unfold filter_css_from_html_and_css
      rw [if_neg hc]
      by_cases hlen : (joinSep ['\n'] (kept_rules html_selectors css)).length > 100000
      · rw [if_pos hlen]
        exact List.take_prefix _ _
      · rw [if_neg hlen]

/- ------------------------------------------------------------------
   section_processor.py : HTML document model
   ------------------------------------------------------------------ -/

/- The parse tree produced by the external BeautifulSoup parser is
   modelled as a tree of elements (tag name, attribute list in source
   order, children) and text nodes; a document is the top-level node
   list.  str(element) is modelled by the serializer below (attribute
   values quoted with '"', text and attribute values entity-escaped,
   void elements self-closed), matching BeautifulSoup's html.parser
   output for the markup considered here. -/

inductive Node where
  | text : Str → Node
  | elem : Str → List (Str × Str) → List Node → Node

abbrev Attrs := List (Str × Str)

/-- First binding of an attribute, none when absent. -/
def getAttr : Attrs → Str → Option Str
  | [], _ => none
  | (k2, v) :: rest, k => if k2 = k then some v else getAttr rest k

/-- element.get(key, ''). -/
def getAttrD (a : Attrs) (k : Str) : Str := (getAttr a k).getD []

/-- element[key] = value: replace the first binding, append when absent. -/
def setAttr : Attrs → Str → Str → Attrs
  | [], k, v => [(k, v)]
  | (k2, v2) :: rest, k, v =>
    if k2 = k then (k2, v) :: rest else (k2, v2) :: setAttr rest k v

def escape_text_char (c : Char) : Str :=
  if c = '&' then "&amp;".data
  else if c = '<' then "&lt;".data
  else if c = '>' then "&gt;".data
  else [c]

/-- BeautifulSoup minimal formatter escaping for text nodes. -/
def escape_text (s : Str) : Str := (s.map escape_text_char).flatten

def escape_attr_char (c : Char) : Str :=
  if c = '&' then "&amp;".data
  else if c = '"' then "&quot;".data
  else [c]

/-- Escaping for attribute values. -/
def escape_attr (s : Str) : Str := (s.map escape_attr_char).flatten

/-- Void elements that html.parser serializes self-closed. -/
def void_tags : List Str :=
  ["area", "base", "br", "col", "embed", "hr", "img", "input", "link",
   "meta", "param", "source", "track", "wbr"].map String.data

def render_attrs : Attrs → Str
  | [] => []
  | (k, v) :: rest =>
    [' '] ++ k ++ ['='] ++ ['"'] ++ escape_attr v ++ ['"'] ++ render_attrs rest

mutual

/-- str(node): serialized markup of a node. -/
def render_node : Node → Str
  | .text s => escape_text s
  | .elem t a cs =>
    if void_tags.contains t && cs.isEmpty then
      ['<'] ++ t ++ render_attrs a ++ ['/', '>']
    else
      ['<'] ++ t ++ render_attrs a ++ ['>'] ++ render_list cs ++ ['<', '/'] ++ t ++ ['>']

/-- Serialized markup of a node list. -/
def render_list : List Node → Str
  | [] => []
  | n :: ns => render_node n ++ render_list ns

end

/-- Components of one element: tag, attributes, children. -/
abbrev ElemT := Str × Attrs × List Node

mutual

/-- All elements of a subtree in document (pre-)order, as find_all sees
them. -/
def all_elems_node : Node → List ElemT
  | .text _ => []
  | .elem t a cs => (t, a, cs) :: all_elems_list cs

/-- All elements under a node list in document order. -/
def all_elems_list : List Node → List ElemT
  | [] => []
  | n :: ns => all_elems_node n ++ all_elems_list ns

end

def render_elem (e : ElemT) : Str := render_node (.elem e.1 e.2.1 e.2.2)

/-- soup.find('body'): first body element in document order. -/
def find_body (doc : List Node) : Option ElemT :=
  (all_elems_list doc).find? fun e => e.1 == ("body".data)

/-- The CSS selector forms used by the section probes: a tag name, an
attribute equality ([role="..."]), a class (.name), and an attribute
substring on class ([class*="..."]). -/
inductive Sel where
  | tagSel : Str → Sel
  | attrSel : Str → Str → Sel
  | classSel : Str → Sel
  | classContainsSel : Str → Sel
deriving DecidableEq

/-- Python str.split() with no argument: split on whitespace runs,
dropping empty pieces (BeautifulSoup's multi-valued class attribute). -/
def split_ws_go (cur : Str) : Str → List Str
  | [] => if cur.isEmpty then [] else [cur.reverse]
  | c :: rest =>
    if isSpaceChar c then
      if cur.isEmpty then split_ws_go [] rest else cur.reverse :: split_ws_go [] rest
    else split_ws_go (c :: cur) rest

def split_ws (s : Str) : List Str := split_ws_go [] s

/-- The class tokens of an element. -/
def class_tokens (a : Attrs) : List Str := split_ws (getAttrD a ("class".data))

def matches_sel (s : Sel) (t : Str) (a : Attrs) : Bool :=
  match s with
  | .tagSel n => t == n
  | .attrSel k v => getAttr a k == some v
  | .classSel c => (class_tokens a).contains c
  | .classContainsSel sub => contains_sub (getAttrD a ("class".data)) sub

/-- soup.select_one: first element of the document matching the selector. -/
def select_one (s : Sel) (doc : List Node) : Option ElemT :=
  (all_elems_list doc).find? fun e => matches_sel s e.1 e.2.1

/-- The common shape of _extract_header/_extract_sidebar/_extract_footer/
_extract_hero: try the selectors in order, return str(element) of the
first hit. -/
def select_first (sels : List Sel) (doc : List Node) : Option Str :=
  match sels with
  | [] => none
  | s :: rest =>
    match select_one s doc with
    | some e => some (render_elem e)
    | none => select_first rest doc

def header_selectors : List Sel :=
  [.tagSel ("header".data), .attrSel ("role".data) ("banner".data),
   .classSel ("header".data), .classSel ("site-header".data),
   .classSel ("main-header".data), .classSel ("navigation".data),
   .tagSel ("nav".data), .classSel ("nav".data)]

def sidebar_selectors : List Sel :=
  [.tagSel ("aside".data), .attrSel ("role".data) ("complementary".data),
   .classSel ("sidebar".data), .classSel ("side-nav".data),
   .classSel ("secondary".data), .classSel ("widget-area".data)]

def footer_selectors : List Sel :=
  [.tagSel ("footer".data), .attrSel ("role".data) ("contentinfo".data),
   .classSel ("footer".data), .classSel ("site-footer".data),
   .classSel ("main-footer".data)]

def hero_selectors : List Sel :=
  [.classSel ("hero".data), .classSel ("banner".data),
   .classSel ("jumbotron".data), .classSel ("hero-section".data),
   .classSel ("main-banner".data), .classContainsSel ("hero".data),
   .classContainsSel ("banner".data)]

def extract_header (doc : List Node) : Option Str := select_first header_selectors doc

def extract_sidebar (doc : List Node) : Option Str := select_first sidebar_selectors doc

def extract_footer (doc : List Node) : Option Str := select_first footer_selectors doc

def extract_hero (doc : List Node) : Option Str := select_first hero_selectors doc

def main_tag_names : List Str := ["div", "section", "main", "article"].map String.data

def nav_class_words : List Str :=
  ["header", "footer", "sidebar", "nav", "menu"].map String.data

def to_lower (s : Str) : Str := s.map Char.toLower

/-- ' '.join(element.get('class', [])).lower() -/
def element_classes_str (a : Attrs) : Str := to_lower (joinSep [' '] (class_tokens a))

/-- An element of the body qualifies as a main-content candidate when it
is a block container, its class string contains none of the
header/footer/sidebar/nav/menu words, and its serialized length is not
below 500. -/
def is_main_candidate (e : ElemT) : Bool :=
  main_tag_names.contains e.1 &&
  !(nav_class_words.any fun w => contains_sub (element_classes_str e.2.1) w) &&
  !((render_elem e).length < 500)

/-- The candidate list collected by _extract_main_content_visual (empty
when there is no body). -/
def main_candidates (doc : List Node) : List ElemT :=
  match find_body doc with
  | none => []
  | some e => (all_elems_list e.2.2).filter is_main_candidate

/-- _extract_main_content_visual: no body or no candidate yields None;
otherwise str() of the first candidate of maximal serialized length
(Python max keeps the earliest maximum). -/
def extract_main_content_visual (doc : List Node) : Option Str :=
  match find_body doc with
  | none => none
  | some e =>
    match (all_elems_list e.2.2).filter is_main_candidate with
    | [] => none
    | c :: cs =>
      some (render_elem (cs.foldl
        (fun best x => if (render_elem x).length > (render_elem best).length then x else best) c))

/-- The WebsiteSection dataclass. -/
structure WebsiteSection where
  name : Str
  html : Str
  css : Str
  description : Str
  priority : Nat

/-- One probe of detect_sections: a found region contributes one section,
an absent region contributes nothing. -/
def section_probe (nm : Str) (o : Option Str) (full_css desc : Str) (prio : Nat) :
    List WebsiteSection :=
  match o with
  | some h => [⟨nm, h, full_css, desc, prio⟩]
  | none => []

/-- detect_sections: probe for header, hero, main content, sidebar and
footer in that storage order; absent regions are omitted; every present
section is paired with the full stylesheet (_extract_css_for_html
returns full_css unchanged). -/
def detect_sections (doc : List Node) (full_css : Str) : List WebsiteSection :=
  section_probe ("header".data) (extract_header doc) full_css
    ("Site header with navigation and branding".data) 2 ++
  section_probe ("hero".data) (extract_hero doc) full_css
    ("Hero banner or main promotional section".data) 2 ++
  section_probe ("main-content".data) (extract_main_content_visual doc) full_css
    ("Main content area with primary information".data) 1 ++
  section_probe ("sidebar".data) (extract_sidebar doc) full_css
    ("Sidebar with secondary navigation or content".data) 3 ++
  section_probe ("footer".data) (extract_footer doc) full_css
    ("Site footer with links and information".data) 4

/-- Stable insertion into a priority-sorted list. -/
def insert_by_priority (s : WebsiteSection) : List WebsiteSection → List WebsiteSection
  | [] => [s]
  | t :: ts =>
    if s.priority ≤ t.priority then s :: t :: ts else t :: insert_by_priority s ts

/-- sorted(sections, key=lambda x: x.priority): stable ascending sort, as
used by process_all_sections. -/
def sort_sections_by_priority : List WebsiteSection → List WebsiteSection
  | [] => []
  | s :: ss => insert_by_priority s (sort_sections_by_priority ss)

/- ------------------------------------------------------------------
   Lemmas about section detection
   ------------------------------------------------------------------ -/

/-- A member of a probe result carries the probe's name and priority. -/
theorem section_probe_mem {nm : Str} {o : Option Str} {css desc : Str} {p : Nat}
    {s : WebsiteSection} (h : s ∈ section_probe nm o css desc p) :
    s.name = nm ∧ s.priority = p := by
  unfold section_probe at h
  split at h
  · simp at h
    subst h
    exact ⟨rfl, rfl⟩
  · exact absurd h (by simp)

/-- When no selector of the list matches any element, select_first finds
nothing. -/
theorem select_first_eq_none {doc : List Node} :
    ∀ {sels : List Sel}, (∀ s ∈ sels, select_one s doc = none) →
      select_first sels doc = none := by
  intro sels
  induction sels with
  | nil => intro _; rfl
  | cons s rest ih =>
    intro h
    unfold select_first
    rw [h s (by simp)]
    exact ih fun t ht => h t (List.mem_cons_of_mem s ht)

/-- A nonempty candidate list makes _extract_main_content_visual succeed. -/
theorem extract_main_isSome_of_candidates {doc : List Node}
    (h : (main_candidates doc).isEmpty = false) :
    ∃ m, extract_main_content_visual doc = some m := by
  unfold main_candidates at h
  unfold extract_main_content_visual
  split at h
  · simp at h
  · next e heq =>
    cases hf : (all_elems_list e.2.2).filter is_main_candidate with
    | nil => rw [hf] at h; simp at h
    | cons c cs => exact ⟨_, rfl⟩

/-- An empty candidate list (including the no-body case) makes
_extract_main_content_visual return None. -/
theorem extract_main_none_of_no_candidates {doc : List Node}
    (h : main_candidates doc = []) :
    extract_main_content_visual doc = none := by
  unfold main_candidates at h
  unfold extract_main_content_visual
  split at h
  · rfl
  · next e heq => rw [h]

/- ------------------------------------------------------------------
   Claim theorems: C4, C8
   ------------------------------------------------------------------ -/

/-- Concrete document for the C4 counterexample: a body whose only
block container is far below the 500-character threshold. -/
def c4_doc : List Node :=
  [.elem ("html".data) [] [.elem ("body".data) []
    [.elem ("div".data) [] [.text ("small".data)]]]]

/-- C4 counterexample: the claim states that when no block container
qualifies, the detector falls back to the document body as the
main-content section.  On a document whose body holds only a tiny div,
the detector instead returns None and the section list contains no
main-content section at all (here it is empty). -/
theorem c4_counterexample :
    extract_main_content_visual c4_doc = none ∧
      (detect_sections c4_doc []).map (fun s => s.name) = [] := ⟨rfl, rfl⟩

/-- C4 amended: when no block-level container qualifies as a candidate,
_extract_main_content_visual returns None (also when there is no body at
all) and detect_sections omits the main-content section entirely; there
is no fallback to the document body. -/
theorem c4_no_body_fallback (doc : List Node) (css : Str)
    (h : main_candidates doc = []) :
    extract_main_content_visual doc = none ∧
      ∀ s ∈ detect_sections doc css, s.name ≠ ("main-content".data) := by
  have hmain := extract_main_none_of_no_candidates h
  refine ⟨hmain, ?_⟩
  intro s hs
  unfold detect_sections at hs
  rw [hmain] at hs
  rcases List.mem_append.mp hs with hs | hs
  · rcases List.mem_append.mp hs with hs | hs
    · rcases List.mem_append.mp hs with hs | hs
      · rcases List.mem_append.mp hs with hs | hs
        · rw [(section_probe_mem hs).1]; decide
        · rw [(section_probe_mem hs).1]; decide
      · exact absurd hs (by simp [section_probe])
    · rw [(section_probe_mem hs).1]; decide
  · rw [(section_probe_mem hs).1]; decide

/-- Witness for C4 amended at the concrete small document. -/
theorem c4_no_body_fallback_witness :
    extract_main_content_visual c4_doc = none ∧
      ∀ s ∈ detect_sections c4_doc [], s.name ≠ ("main-content".data) :=
  c4_no_body_fallback c4_doc [] (by rfl)

/-- If some element of the document matches a selector, select_one
succeeds. -/
theorem select_one_isSome_of_any {s : Sel} {doc : List Node}
    (h : (all_elems_list doc).any (fun e => matches_sel s e.1 e.2.1) = true) :
    ∃ e, select_one s doc = some e := by
  obtain ⟨x, hx, hpx⟩ := List.any_eq_true.mp h
  have h2 := (@List.find?_isSome ElemT (all_elems_list doc)
    (fun e => matches_sel s e.1 e.2.1)).mpr ⟨x, hx, hpx⟩
  exact Option.isSome_iff_exists.mp h2

/-- If no element of the document matches a selector, select_one fails. -/
theorem select_one_eq_none_of_not_any {s : Sel} {doc : List Node}
    (h : (all_elems_list doc).any (fun e => matches_sel s e.1 e.2.1) = false) :
    select_one s doc = none := by
  unfold select_one
  refine List.find?_eq_none.mpr fun x hx => ?_
  intro hpx
  have h2 := (@List.any_eq_true ElemT (fun e => matches_sel s e.1 e.2.1)
    (all_elems_list doc)).mpr ⟨x, hx, hpx⟩
  rw [h2] at h
  exact absurd h (by decide)

/-- C8: a document with a header element, a footer element, at least one
qualifying main-content candidate, and nothing matching any hero or
sidebar selector yields exactly the three sections header, main-content,
footer (in storage order), with priorities 2, 1, 4; sorting by ascending
priority for processing orders them main-content, header, footer. -/
theorem c8_header_main_footer (doc : List Node) (css : Str)
    (hH : (all_elems_list doc).any
      (fun e => matches_sel (Sel.tagSel ("header".data)) e.1 e.2.1) = true)
    (hF : (all_elems_list doc).any
      (fun e => matches_sel (Sel.tagSel ("footer".data)) e.1 e.2.1) = true)
    (hHero : hero_selectors.all
      (fun s => !(all_elems_list doc).any (fun e => matches_sel s e.1 e.2.1)) = true)
    (hSide : sidebar_selectors.all
      (fun s => !(all_elems_list doc).any (fun e => matches_sel s e.1 e.2.1)) = true)
    (hMain : (main_candidates doc).isEmpty = false) :
    (detect_sections doc css).map (fun s => s.name) =
      ["header".data, "main-content".data, "footer".data] ∧
    (detect_sections doc css).map (fun s => s.priority) = [2, 1, 4] ∧
    (sort_sections_by_priority (detect_sections doc css)).map (fun s => s.name) =
      ["main-content".data, "header".data, "footer".data] := by
  obtain ⟨eh, heh⟩ := select_one_isSome_of_any hH
  obtain ⟨ef, hef⟩ := select_one_isSome_of_any hF
  have hhdr : extract_header doc = some (render_elem eh) := by
    unfold extract_header header_selectors select_first
    rw [heh]
  have hftr : extract_footer doc = some (render_elem ef) := by
    unfold extract_footer footer_selectors select_first
    rw [hef]
  have hhero : extract_hero doc = none := by
    refine select_first_eq_none fun s hsmem => ?_
    refine select_one_eq_none_of_not_any ?_
    have := List.all_eq_true.mp hHero s hsmem
    simpa using this
  have hside : extract_sidebar doc = none := by
    refine select_first_eq_none fun s hsmem => ?_
    refine select_one_eq_none_of_not_any ?_
    have := List.all_eq_true.mp hSide s hsmem
    simpa using this
  obtain ⟨m, hm⟩ := extract_main_isSome_of_candidates hMain
  unfold detect_sections
  rw [hhdr, hftr, hhero, hside, hm]
  refine ⟨?_, ?_, ?_⟩ <;>
    simp [section_probe, sort_sections_by_priority, insert_by_priority]

/-- Concrete document for the C8 witness: header, a large plain div,
footer. -/
def c8_doc : List Node :=
  [.elem ("html".data) [] [.elem ("body".data) [] [
    .elem ("header".data) [] [.text ("H".data)],
    .elem ("div".data) [] [.text (List.replicate 520 'x')],
    .elem ("footer".data) [] [.text ("F".data)]]]]

set_option maxRecDepth 8000 in
/-- Witness for C8 at the concrete document. -/
theorem c8_header_main_footer_witness :
    (detect_sections c8_doc []).map (fun s => s.name) =
      ["header".data, "main-content".data, "footer".data] ∧
    (detect_sections c8_doc []).map (fun s => s.priority) = [2, 1, 4] ∧
    (sort_sections_by_priority (detect_sections c8_doc [])).map (fun s => s.name) =
      ["main-content".data, "header".data, "footer".data] :=
  c8_header_main_footer c8_doc [] (by rfl) (by rfl) (by rfl) (by rfl) (by rfl)

/- ------------------------------------------------------------------
   section_processor.py : URL / link normalization
   ------------------------------------------------------------------ -/

/-- The fixed fallback origin used when no original URL is available. -/
def bu_host : Str := "https://www.bu.edu".data

/-- Python s.startswith(p). -/
def starts_with (p s : Str) : Bool := p.isPrefixOf s

/-- The img-src rewrite of _process_combined_html (lines 601-614):
absolute URLs are kept, root-relative and other relative URLs are
prefixed with the fallback origin. -/
def fix_img_src (a : Attrs) : Attrs :=
  if (getAttrD a ("src".data)).isEmpty then a
  else if starts_with ("http".data) (getAttrD a ("src".data)) then a
  else if starts_with ("/".data) (getAttrD a ("src".data)) then
    setAttr a ("src".data) (bu_host ++ getAttrD a ("src".data))
  else setAttr a ("src".data) (bu_host ++ ('/' :: getAttrD a ("src".data)))

/-- The img-src rewrite of process_entire_site_conservatively
(lines 88-91, the branch taken when no original URL is supplied; with an
original URL the source delegates to the external urllib urljoin). -/
def cons_fix_img_src (a : Attrs) : Attrs :=
  if (getAttrD a ("src".data)).isEmpty then a
  else if starts_with ("/".data) (getAttrD a ("src".data)) then
    setAttr a ("src".data) (bu_host ++ getAttrD a ("src".data))
  else if !starts_with ("http".data) (getAttrD a ("src".data)) then
    setAttr a ("src".data) (bu_host ++ ('/' :: getAttrD a ("src".data)))
  else a

/-- The per-URL fix inside the srcset rewrite. -/
def fix_url (u : Str) : Str :=
  if starts_with ("http".data) u then u
  else if starts_with ("/".data) u then bu_host ++ u
  else bu_host ++ ('/' :: u)

/-- Python s.split(' ', 1): split at the first space character, none when
there is no space (in the source an unpacking ValueError). -/
def split_first_space : Str → Option (Str × Str)
  | [] => none
  | c :: rest =>
    if c = ' ' then some ([], rest)
    else (split_first_space rest).map fun pr => (c :: pr.1, pr.2)

/-- One srcset entry: `url size` entries keep their size descriptor,
bare entries are just URLs.  An entry that contains a space only outside
its stripped text (e.g. " u" with no descriptor) makes the source raise
ValueError on unpacking, modelled as none. -/
def fix_srcset_item (item : Str) : Option Str :=
  if item.contains ' ' then
    match split_first_space (pstrip item) with
    | some (url, size) => some (fix_url url ++ (' ' :: size))
    | none => none
  else some (fix_url (pstrip item))

/-- Sequential processing of the srcset entries, stopping at the first
failure, as the Python for-loop does. -/
def mapO (f : Str → Option Str) : List Str → Option (List Str)
  | [] => some []
  | x :: xs =>
    match f x with
    | none => none
    | some y =>
      match mapO f xs with
      | none => none
      | some ys => some (y :: ys)

/-- The srcset rewrite applied to a source element: skipped entirely when
the srcset is empty or the whole attribute string already starts with
'http'; otherwise every comma-separated entry is fixed and the entries
are re-joined with ', '. -/
def fix_source_srcset (a : Attrs) : Option Attrs :=
  if !(getAttrD a ("srcset".data)).isEmpty &&
      !starts_with ("http".data) (getAttrD a ("srcset".data)) then
    match mapO fix_srcset_item (splitOnChar ',' (getAttrD a ("srcset".data))) with
    | some items => some (setAttr a ("srcset".data) (joinSep (", ".data) items))
    | none => none
  else some a

/-- External links: an href that starts with 'http' becomes '#'. -/
def fix_link_href (a : Attrs) : Attrs :=
  if !(getAttrD a ("href".data)).isEmpty &&
      starts_with ("http".data) (getAttrD a ("href".data)) then
    setAttr a ("href".data) ("#".data)
  else a

/-- Form actions: a present nonempty action becomes '#'. -/
def fix_form_action (a : Attrs) : Attrs :=
  if !(getAttrD a ("action".data)).isEmpty then setAttr a ("action".data) ("#".data)
  else a

/- Each normalization pass visits every element of the document and
   rewrites its attributes as a function of the tag (and, for srcset,
   of whether the element sits below a picture element, which is how
   find_all('source') inside find_all('picture') reaches it; reprocessing
   of sources under nested pictures is absorbed, the rewrite being
   skipped on an already-absolute srcset). -/

mutual

def tmap_node (f : Bool → Str → Attrs → Attrs) (inPic : Bool) : Node → Node
  | .text s => .text s
  | .elem t a cs =>
    .elem t (f inPic t a) (tmap_list f (inPic || t == ("picture".data)) cs)

def tmap_list (f : Bool → Str → Attrs → Attrs) (inPic : Bool) : List Node → List Node
  | [] => []
  | n :: ns => tmap_node f inPic n :: tmap_list f inPic ns

end

mutual

def tmapO_node (f : Bool → Str → Attrs → Option Attrs) (inPic : Bool) :
    Node → Option Node
  | .text s => some (.text s)
  | .elem t a cs =>
    match f inPic t a with
    | none => none
    | some a2 =>
      match tmapO_list f (inPic || t == ("picture".data)) cs with
      | none => none
      | some cs2 => some (.elem t a2 cs2)

def tmapO_list (f : Bool → Str → Attrs → Option Attrs) (inPic : Bool) :
    List Node → Option (List Node)
  | [] => some []
  | n :: ns =>
    match tmapO_node f inPic n with
    | none => none
    | some n2 =>
      match tmapO_list f inPic ns with
      | none => none
      | some ns2 => some (n2 :: ns2)

end

/-- Pass 1 of _process_combined_html: soup.find_all('img'). -/
def img_step (_ : Bool) (t : Str) (a : Attrs) : Attrs :=
  if t = ("img".data) then fix_img_src a else a

/-- The conservative-path img pass. -/
def cons_img_step (_ : Bool) (t : Str) (a : Attrs) : Attrs :=
  if t = ("img".data) then cons_fix_img_src a else a

/-- Pass 2: sources below picture elements. -/
def srcset_step (inPic : Bool) (t : Str) (a : Attrs) : Option Attrs :=
  if t = ("source".data) ∧ inPic then fix_source_srcset a else some a

/-- Pass 3: soup.find_all('a'). -/
def link_step (_ : Bool) (t : Str) (a : Attrs) : Attrs :=
  if t = ("a".data) then fix_link_href a else a

/-- Pass 4: soup.find_all('form'). -/
def form_step (_ : Bool) (t : Str) (a : Attrs) : Attrs :=
  if t = ("form".data) then fix_form_action a else a

/-- _process_combined_html on the parsed document: fix images, then
responsive srcsets, then links, then forms.  none models the ValueError
escaping from a malformed srcset entry. -/
def process_combined_html (doc : List Node) : Option (List Node) :=
  match tmapO_list srcset_step false (tmap_list img_step false doc) with
  | none => none
  | some d2 => some (tmap_list form_step false (tmap_list link_step false d2))

/-- _fix_links_only: only the link and form passes, then str(soup). -/
def fix_links_only (ns : List Node) : Str :=
  render_list (tmap_list form_step false (tmap_list link_step false ns))

/- ------------------------------------------------------------------
   Invariant machinery for the normalization passes
   ------------------------------------------------------------------ -/

mutual

/-- Every element of a subtree satisfies an attribute predicate (indexed
by the in-picture flag and the tag). -/
def every_attrs_node (p : Bool → Str → Attrs → Bool) (inPic : Bool) : Node → Bool
  | .text _ => true
  | .elem t a cs =>
    p inPic t a && every_attrs_list p (inPic || t == ("picture".data)) cs

def every_attrs_list (p : Bool → Str → Attrs → Bool) (inPic : Bool) : List Node → Bool
  | [] => true
  | n :: ns => every_attrs_node p inPic n && every_attrs_list p inPic ns

end

mutual

/-- A pass whose local function fixes every attribute list satisfying p
is the identity on trees all of whose elements satisfy p. -/
theorem tmap_node_noop (f : Bool → Str → Attrs → Attrs) (p : Bool → Str → Attrs → Bool)
    (hfp : ∀ b t a, p b t a = true → f b t a = a) :
    ∀ (b : Bool) (n : Node), every_attrs_node p b n = true → tmap_node f b n = n
  | _, .text _, _ => rfl
  | b, .elem t a cs, h => by
    have h1 : p b t a = true ∧ every_attrs_list p (b || t == ("picture".data)) cs = true := by
      simpa [every_attrs_node] using h
    show Node.elem t (f b t a) (tmap_list f (b || t == ("picture".data)) cs) = Node.elem t a cs
    rw [hfp b t a h1.1, tmap_list_noop f p hfp _ cs h1.2]

theorem tmap_list_noop (f : Bool → Str → Attrs → Attrs) (p : Bool → Str → Attrs → Bool)
    (hfp : ∀ b t a, p b t a = true → f b t a = a) :
    ∀ (b : Bool) (ns : List Node), every_attrs_list p b ns = true → tmap_list f b ns = ns
  | _, [], _ => rfl
  | b, n :: ns, h => by
    have h1 : every_attrs_node p b n = true ∧ every_attrs_list p b ns = true := by
      simpa [every_attrs_list] using h
    show tmap_node f b n :: tmap_list f b ns = n :: ns
    rw [tmap_node_noop f p hfp b n h1.1, tmap_list_noop f p hfp b ns h1.2]

end

mutual

/-- A pass whose local function always produces attribute lists
satisfying p establishes p everywhere. -/
theorem tmap_node_establish (f : Bool → Str → Attrs → Attrs) (p : Bool → Str → Attrs → Bool)
    (hf : ∀ b t a, p b t (f b t a) = true) :
    ∀ (b : Bool) (n : Node), every_attrs_node p b (tmap_node f b n) = true
  | _, .text _ => rfl
  | b, .elem t a cs => by
    show every_attrs_node p b
      (Node.elem t (f b t a) (tmap_list f (b || t == ("picture".data)) cs)) = true
    unfold every_attrs_node
    rw [hf b t a, tmap_list_establish f p hf _ cs]
    rfl

theorem tmap_list_establish (f : Bool → Str → Attrs → Attrs) (p : Bool → Str → Attrs → Bool)
    (hf : ∀ b t a, p b t (f b t a) = true) :
    ∀ (b : Bool) (ns : List Node), every_attrs_list p b (tmap_list f b ns) = true
  | _, [] => rfl
  | b, n :: ns => by
    show every_attrs_list p b (tmap_node f b n :: tmap_list f b ns) = true
    unfold every_attrs_list
    rw [tmap_node_establish f p hf b n, tmap_list_establish f p hf b ns]
    rfl

end

mutual

/-- A pass whose local function preserves p keeps p everywhere. -/
theorem tmap_node_preserve (f : Bool → Str → Attrs → Attrs) (p : Bool → Str → Attrs → Bool)
    (hf : ∀ b t a, p b t a = true → p b t (f b t a) = true) :
    ∀ (b : Bool) (n : Node), every_attrs_node p b n = true →
      every_attrs_node p b (tmap_node f b n) = true
  | _, .text _, _ => rfl
  | b, .elem t a cs, h => by
    have h1 : p b t a = true ∧ every_attrs_list p (b || t == ("picture".data)) cs = true := by
      simpa [every_attrs_node] using h
    show every_attrs_node p b
      (Node.elem t (f b t a) (tmap_list f (b || t == ("picture".data)) cs)) = true
    unfold every_attrs_node
    rw [hf b t a h1.1, tmap_list_preserve f p hf _ cs h1.2]
    rfl

theorem tmap_list_preserve (f : Bool → Str → Attrs → Attrs) (p : Bool → Str → Attrs → Bool)
    (hf : ∀ b t a, p b t a = true → p b t (f b t a) = true) :
    ∀ (b : Bool) (ns : List Node), every_attrs_list p b ns = true →
      every_attrs_list p b (tmap_list f b ns) = true
  | _, [], _ => rfl
  | b, n :: ns, h => by
    have h1 : every_attrs_node p b n = true ∧ every_attrs_list p b ns = true := by
      simpa [every_attrs_list] using h
    show every_attrs_list p b (tmap_node f b n :: tmap_list f b ns) = true
    unfold every_attrs_list
    rw [tmap_node_preserve f p hf b n h1.1, tmap_list_preserve f p hf b ns h1.2]
    rfl

end

mutual

/-- An optional pass whose local function succeeds unchanged on attribute
lists satisfying p succeeds unchanged on trees satisfying p everywhere. -/
theorem tmapO_node_noop (f : Bool → Str → Attrs → Option Attrs)
    (p : Bool → Str → Attrs → Bool)
    (hfp : ∀ b t a, p b t a = true → f b t a = some a) :
    ∀ (b : Bool) (n : Node), every_attrs_node p b n = true → tmapO_node f b n = some n
  | _, .text _, _ => rfl
  | b, .elem t a cs, h => by
    have h1 : p b t a = true ∧ every_attrs_list p (b || t == ("picture".data)) cs = true := by
      simpa [every_attrs_node] using h
    show (match f b t a with
      | none => none
      | some a2 =>
        match tmapO_list f (b || t == ("picture".data)) cs with
        | none => none
        | some cs2 => some (Node.elem t a2 cs2)) = some (Node.elem t a cs)
    rw [hfp b t a h1.1, tmapO_list_noop f p hfp _ cs h1.2]

theorem tmapO_list_noop (f : Bool → Str → Attrs → Option Attrs)
    (p : Bool → Str → Attrs → Bool)
    (hfp : ∀ b t a, p b t a = true → f b t a = some a) :
    ∀ (b : Bool) (ns : List Node), every_attrs_list p b ns = true →
      tmapO_list f b ns = some ns
  | _, [], _ => rfl
  | b, n :: ns, h => by
    have h1 : every_attrs_node p b n = true ∧ every_attrs_list p b ns = true := by
      simpa [every_attrs_list] using h
    show (match tmapO_node f b n with
      | none => none
      | some n2 =>
        match tmapO_list f b ns with
        | none => none
        | some ns2 => some (n2 :: ns2)) = some (n :: ns)
    rw [tmapO_node_noop f p hfp b n h1.1, tmapO_list_noop f p hfp b ns h1.2]

end

mutual

/-- A successful optional pass whose local function always outputs
attribute lists satisfying p establishes p on its output. -/
theorem tmapO_node_establish (f : Bool → Str → Attrs → Option Attrs)
    (p : Bool → Str → Attrs → Bool)
    (hf : ∀ b t a a2, f b t a = some a2 → p b t a2 = true) :
    ∀ (b : Bool) (n m : Node), tmapO_node f b n = some m →
      every_attrs_node p b m = true
  | _, .text _, m, h => by
    simp [tmapO_node] at h
    subst h
    rfl
  | b, .elem t a cs, m, h => by
    revert h
    show (match f b t a with
      | none => none
      | some a2 =>
        match tmapO_list f (b || t == ("picture".data)) cs with
        | none => none
        | some cs2 => some (Node.elem t a2 cs2)) = some m →
      every_attrs_node p b m = true
    intro h
    rcases ha : f b t a with _ | a2
    · rw [ha] at h; exact absurd h (by simp)
    · rw [ha] at h
      rcases hcs : tmapO_list f (b || t == ("picture".data)) cs with _ | cs2
      · rw [hcs] at h; exact absurd h (by simp)
      · rw [hcs] at h
        simp only [Option.some.injEq] at h
        subst h
        unfold every_attrs_node
        rw [hf b t a a2 ha, tmapO_list_establish f p hf _ cs cs2 hcs]
        rfl

theorem tmapO_list_establish (f : Bool → Str → Attrs → Option Attrs)
    (p : Bool → Str → Attrs → Bool)
    (hf : ∀ b t a a2, f b t a = some a2 → p b t a2 = true) :
    ∀ (b : Bool) (ns ms : List Node), tmapO_list f b ns = some ms →
      every_attrs_list p b ms = true
  | _, [], ms, h => by
    simp [tmapO_list] at h
    subst h
    rfl
  | b, n :: ns, ms, h => by
    revert h
    show (match tmapO_node f b n with
      | none => none
      | some n2 =>
        match tmapO_list f b ns with
        | none => none
        | some ns2 => some (n2 :: ns2)) = some ms →
      every_attrs_list p b ms = true
    intro h
    rcases hn : tmapO_node f b n with _ | n2
    · rw [hn] at h; exact absurd h (by simp)
    · rw [hn] at h
      rcases hns : tmapO_list f b ns with _ | ns2
      · rw [hns] at h; exact absurd h (by simp)
      · rw [hns] at h
        simp only [Option.some.injEq] at h
        subst h
        unfold every_attrs_list
        rw [tmapO_node_establish f p hf b n n2 hn,
          tmapO_list_establish f p hf b ns ns2 hns]
        rfl

end

mutual

/-- A successful optional pass whose local function preserves p keeps p
on its output. -/
theorem tmapO_node_preserve (f : Bool → Str → Attrs → Option Attrs)
    (p : Bool → Str → Attrs → Bool)
    (hf : ∀ b t a a2, p b t a = true → f b t a = some a2 → p b t a2 = true) :
    ∀ (b : Bool) (n m : Node), tmapO_node f b n = some m →
      every_attrs_node p b n = true → every_attrs_node p b m = true
  | _, .text _, m, h, _ => by
    simp [tmapO_node] at h
    subst h
    rfl
  | b, .elem t a cs, m, h, hev => by
    have h1 : p b t a = true ∧ every_attrs_list p (b || t == ("picture".data)) cs = true := by
      simpa [every_attrs_node] using hev
    revert h
    show (match f b t a with
      | none => none
      | some a2 =>
        match tmapO_list f (b || t == ("picture".data)) cs with
        | none => none
        | some cs2 => some (Node.elem t a2 cs2)) = some m →
      every_attrs_node p b m = true
    intro h
    rcases ha : f b t a with _ | a2
    · rw [ha] at h; exact absurd h (by simp)
    · rw [ha] at h
      rcases hcs : tmapO_list f (b || t == ("picture".data)) cs with _ | cs2
      · rw [hcs] at h; exact absurd h (by simp)
      · rw [hcs] at h
        simp only [Option.some.injEq] at h
        subst h
        unfold every_attrs_node
        rw [hf b t a a2 h1.1 ha, tmapO_list_preserve f p hf _ cs cs2 hcs h1.2]
        rfl

theorem tmapO_list_preserve (f : Bool → Str → Attrs → Option Attrs)
    (p : Bool → Str → Attrs → Bool)
    (hf : ∀ b t a a2, p b t a = true → f b t a = some a2 → p b t a2 = true) :
    ∀ (b : Bool) (ns ms : List Node), tmapO_list f b ns = some ms →
      every_attrs_list p b ns = true → every_attrs_list p b ms = true
  | _, [], ms, h, _ => by
    simp [tmapO_list] at h
    subst h
    rfl
  | b, n :: ns, ms, h, hev => by
    have h1 : every_attrs_node p b n = true ∧ every_attrs_list p b ns = true := by
      simpa [every_attrs_list] using hev
    revert h
    show (match tmapO_node f b n with
      | none => none
      | some n2 =>
        match tmapO_list f b ns with
        | none => none
        | some ns2 => some (n2 :: ns2)) = some ms →
      every_attrs_list p b ms = true
    intro h
    rcases hn : tmapO_node f b n with _ | n2
    · rw [hn] at h; exact absurd h (by simp)
    · rw [hn] at h
      rcases hns : tmapO_list f b ns with _ | ns2
      · rw [hns] at h; exact absurd h (by simp)
      · rw [hns] at h
        simp only [Option.some.injEq] at h
        subst h
        unfold every_attrs_list
        rw [tmapO_node_preserve f p hf b n n2 hn h1.1,
          tmapO_list_preserve f p hf b ns ns2 hns h1.2]
        rfl

end

/- ------------------------------------------------------------------
   Local facts about the attribute rewrites
   ------------------------------------------------------------------ -/

theorem getAttr_setAttr (a : Attrs) (k v : Str) : getAttr (setAttr a k v) k = some v := by
  induction a with
  | nil => simp [setAttr, getAttr]
  | cons kv rest ih =>
    by_cases h : kv.1 = k
    · simp [setAttr, getAttr, h]
    · obtain ⟨k2, v2⟩ := kv
      simp only at h
      simp [setAttr, getAttr, h, ih]

theorem getAttrD_setAttr (a : Attrs) (k v : Str) : getAttrD (setAttr a k v) k = v := by
  unfold getAttrD
  rw [getAttr_setAttr]
  rfl

theorem setAttr_setAttr (a : Attrs) (k v w : Str) :
    setAttr (setAttr a k v) k w = setAttr a k w := by
  induction a with
  | nil => simp [setAttr]
  | cons kv rest ih =>
    by_cases h : kv.1 = k
    · obtain ⟨k2, v2⟩ := kv
      simp only at h
      simp [setAttr, h]
    · obtain ⟨k2, v2⟩ := kv
      simp only at h
      simp [setAttr, h, ih]

theorem starts_with_append_of {p s : Str} (t : Str) (h : starts_with p s = true) :
    starts_with p (s ++ t) = true := by
  rw [starts_with, List.isPrefixOf_iff_prefix] at *
  exact h.trans (List.prefix_append s t)

theorem starts_with_http_bu (s : Str) :
    starts_with ("http".data) (bu_host ++ s) = true :=
  starts_with_append_of s (by rfl)

theorem bu_append_ne_empty (s : Str) : (bu_host ++ s).isEmpty = false := rfl

theorem starts_with_http_not_empty {s : Str} (h : starts_with ("http".data) s = true) :
    s.isEmpty = false := by
  rw [starts_with, List.isPrefixOf_iff_prefix] at h
  obtain ⟨t, ht⟩ := h
  cases s with
  | nil => simp at ht
  | cons c cs => rfl

theorem fix_url_starts_http (u : Str) : starts_with ("http".data) (fix_url u) = true := by
  unfold fix_url
  by_cases h1 : starts_with ("http".data) u = true
  · rw [if_pos h1]; exact h1
  · rw [if_neg h1]
    by_cases h2 : starts_with ("/".data) u = true
    · rw [if_pos h2]; exact starts_with_http_bu u
    · rw [if_neg h2]; exact starts_with_http_bu ('/' :: u)

theorem fix_srcset_item_starts_http {it r : Str} (h : fix_srcset_item it = some r) :
    starts_with ("http".data) r = true := by
  unfold fix_srcset_item at h
  by_cases hc : it.contains ' ' = true
  · rw [if_pos hc] at h
    rcases hs : split_first_space (pstrip it) with _ | ⟨url, size⟩
    · rw [hs] at h; exact absurd h (by simp)
    · rw [hs] at h
      simp only [Option.some.injEq] at h
      subst h
      exact starts_with_append_of _ (fix_url_starts_http url)
  · rw [if_neg hc] at h
    simp only [Option.some.injEq] at h
    subst h
    exact fix_url_starts_http _

theorem joinSep_starts_with {p x : Str} {sep : Str} {xs : List Str}
    (h : starts_with p x = true) :
    starts_with p (joinSep sep (x :: xs)) = true := by
  cases xs with
  | nil => exact h
  | cons y ys =>
    show starts_with p (x ++ sep ++ joinSep sep (y :: ys)) = true
    exact starts_with_append_of _ (starts_with_append_of _ h)

theorem splitOnChar_ne_nil (c : Char) (s : Str) : splitOnChar c s ≠ [] := by
  cases s with
  | nil => simp [splitOnChar]
  | cons x rest =>
    unfold splitOnChar
    by_cases h : x = c
    · simp [h]
    · simp only [h, if_false]
      split <;> simp

theorem mapO_cons {f : Str → Option Str} {x : Str} {xs : List Str} {r : List Str}
    (h : mapO f (x :: xs) = some r) :
    ∃ y ys, f x = some y ∧ mapO f xs = some ys ∧ r = y :: ys := by
  unfold mapO at h
  split at h
  · exact absurd h (by simp)
  · next y hy =>
    split at h
    · exact absurd h (by simp)
    · next ys hys =>
      simp only [Option.some.injEq] at h
      exact ⟨y, ys, hy, hys, h.symm⟩

/-- The img rewrite is locally idempotent: a rewritten src is absolute. -/
theorem fix_img_src_idem (a : Attrs) : fix_img_src (fix_img_src a) = fix_img_src a := by
  by_cases h1 : (getAttrD a ("src".data)).isEmpty = true
  · have hinner : fix_img_src a = a := by
      unfold fix_img_src
      rw [if_pos h1]
    rw [hinner, hinner]
  · by_cases h2 : starts_with ("http".data) (getAttrD a ("src".data)) = true
    · have hinner : fix_img_src a = a := by
        unfold fix_img_src
        rw [if_neg h1, if_pos h2]
      rw [hinner, hinner]
    · by_cases h3 : starts_with ("/".data) (getAttrD a ("src".data)) = true
      · have hinner : fix_img_src a
            = setAttr a ("src".data) (bu_host ++ getAttrD a ("src".data)) := by
          unfold fix_img_src
          rw [if_neg h1, if_neg h2, if_pos h3]
        rw [hinner]
        unfold fix_img_src
        rw [if_neg (by simp [getAttrD_setAttr, bu_append_ne_empty]),
          if_pos (by rw [getAttrD_setAttr]; exact starts_with_http_bu _)]
      · have hinner : fix_img_src a
            = setAttr a ("src".data) (bu_host ++ ('/' :: getAttrD a ("src".data))) := by
          unfold fix_img_src
          rw [if_neg h1, if_neg h2, if_neg h3]
        rw [hinner]
        unfold fix_img_src
        rw [if_neg (by simp [getAttrD_setAttr, bu_append_ne_empty]),
          if_pos (by rw [getAttrD_setAttr]; exact starts_with_http_bu _)]

/-- The link rewrite is locally idempotent: '#' does not start with
'http'. -/
theorem fix_link_href_idem (a : Attrs) : fix_link_href (fix_link_href a) = fix_link_href a := by
  by_cases h1 : (!(getAttrD a ("href".data)).isEmpty &&
      starts_with ("http".data) (getAttrD a ("href".data))) = true
  · have hinner : fix_link_href a = setAttr a ("href".data) ("#".data) := by
      unfold fix_link_href
      rw [if_pos h1]
    rw [hinner]
    unfold fix_link_href
    rw [if_neg (by rw [getAttrD_setAttr]; decide)]
  · have hinner : fix_link_href a = a := by
      unfold fix_link_href
      rw [if_neg h1]
    rw [hinner, hinner]

/-- The form rewrite is locally idempotent: rewriting the action to '#'
twice writes the same attribute list. -/
theorem fix_form_action_idem (a : Attrs) :
    fix_form_action (fix_form_action a) = fix_form_action a := by
  by_cases h1 : (!(getAttrD a ("action".data)).isEmpty) = true
  · have hinner : fix_form_action a = setAttr a ("action".data) ("#".data) := by
      unfold fix_form_action
      rw [if_pos h1]
    rw [hinner]
    unfold fix_form_action
    rw [if_pos (by rw [getAttrD_setAttr]; decide), setAttr_setAttr]
  · have hinner : fix_form_action a = a := by
      unfold fix_form_action
      rw [if_neg h1]
    rw [hinner, hinner]

/-- A successful srcset rewrite leaves an attribute list on which a
second rewrite is the successful identity: the new srcset starts with
'http' so the pass skips it. -/
theorem fix_source_srcset_establishes {a a2 : Attrs}
    (h : fix_source_srcset a = some a2) : fix_source_srcset a2 = some a2 := by
  unfold fix_source_srcset at h
  by_cases hss : (!(getAttrD a ("srcset".data)).isEmpty &&
      !starts_with ("http".data) (getAttrD a ("srcset".data))) = true
  · rw [if_pos hss] at h
    rcases hm : mapO fix_srcset_item (splitOnChar ',' (getAttrD a ("srcset".data)))
        with _ | items
    · rw [hm] at h; exact absurd h (by simp)
    · rw [hm] at h
      simp only [Option.some.injEq] at h
      subst h
      have hjoin : starts_with ("http".data) (joinSep (", ".data) items) = true := by
        rcases hsplit : splitOnChar ',' (getAttrD a ("srcset".data)) with _ | ⟨x, xs⟩
        · exact absurd hsplit (splitOnChar_ne_nil _ _)
        · rw [hsplit] at hm
          obtain ⟨y, ys, hy, _, hr⟩ := mapO_cons hm
          subst hr
          exact joinSep_starts_with (fix_srcset_item_starts_http hy)
      unfold fix_source_srcset
      rw [if_neg (by simp [getAttrD_setAttr, hjoin])]
  · rw [if_neg hss] at h
    simp only [Option.some.injEq] at h
    subst h
    unfold fix_source_srcset
    rw [if_neg hss]

/-- img_step changes only img elements. -/
theorem img_step_ne (b : Bool) {t : Str} (ht : ¬ t = ("img".data)) (a : Attrs) :
    img_step b t a = a := by
  unfold img_step
  rw [if_neg ht]

/-- link_step changes only a elements. -/
theorem link_step_ne (b : Bool) {t : Str} (ht : ¬ t = ("a".data)) (a : Attrs) :
    link_step b t a = a := by
  unfold link_step
  rw [if_neg ht]

/-- form_step changes only form elements. -/
theorem form_step_ne (b : Bool) {t : Str} (ht : ¬ t = ("form".data)) (a : Attrs) :
    form_step b t a = a := by
  unfold form_step
  rw [if_neg ht]

/-- srcset_step changes only source elements below a picture. -/
theorem srcset_step_ne (b : Bool) {t : Str} (ht : ¬ (t = ("source".data) ∧ b = true))
    (a : Attrs) : srcset_step b t a = some a := by
  unfold srcset_step
  rw [if_neg ht]

/-- Generic cross-stability of two total passes acting on distinct tags. -/
theorem noop_cross_total {f g : Bool → Str → Attrs → Attrs} {tf tg : Str}
    (hf_ne : ∀ b t a, ¬ t = tf → f b t a = a)
    (hg_ne : ∀ b t a, ¬ t = tg → g b t a = a)
    (hne : ¬ tf = tg) :
    ∀ b t a, f b t a = a → f b t (g b t a) = g b t a := by
  intro b t a hp
  by_cases ht : t = tg
  · exact hf_ne b t _ (by rw [ht]; exact fun hh => hne hh.symm)
  · rw [hg_ne b t a ht]
    exact hp

/-- A total pass not acting on source elements keeps the srcset no-op. -/
theorem srcset_noop_cross_total {g : Bool → Str → Attrs → Attrs} {tg : Str}
    (hg_ne : ∀ b t a, ¬ t = tg → g b t a = a)
    (hne : ¬ tg = ("source".data)) :
    ∀ b t a, srcset_step b t a = some a → srcset_step b t (g b t a) = some (g b t a) := by
  intro b t a hp
  by_cases ht : t = ("source".data) ∧ b = true
  · rw [hg_ne b t a (by rw [ht.1]; exact fun hh => hne hh.symm)]
    exact hp
  · exact srcset_step_ne b ht _

/-- The srcset pass keeps the no-op status of a pass not acting on
source elements. -/
theorem noop_cross_srcset {f : Bool → Str → Attrs → Attrs} {tf : Str}
    (hf_ne : ∀ b t a, ¬ t = tf → f b t a = a)
    (hne : ¬ ("source".data) = tf) :
    ∀ b t a a2, f b t a = a → srcset_step b t a = some a2 → f b t a2 = a2 := by
  intro b t a a2 hp h
  by_cases ht : t = ("source".data) ∧ b = true
  · exact hf_ne b t a2 (by rw [ht.1]; exact hne)
  · rw [srcset_step_ne b ht a] at h
    simp only [Option.some.injEq] at h
    subst h
    exact hp

/-- Local idempotence of the img pass, at every tag. -/
theorem img_step_establishes (b : Bool) (t : Str) (a : Attrs) :
    img_step b t (img_step b t a) = img_step b t a := by
  unfold img_step
  by_cases ht : t = ("img".data)
  · rw [if_pos ht, if_pos ht, fix_img_src_idem]
  · rw [if_neg ht, if_neg ht]

/-- Local idempotence of the link pass, at every tag. -/
theorem link_step_establishes (b : Bool) (t : Str) (a : Attrs) :
    link_step b t (link_step b t a) = link_step b t a := by
  unfold link_step
  by_cases ht : t = ("a".data)
  · rw [if_pos ht, if_pos ht, fix_link_href_idem]
  · rw [if_neg ht, if_neg ht]

/-- Local idempotence of the form pass, at every tag. -/
theorem form_step_establishes (b : Bool) (t : Str) (a : Attrs) :
    form_step b t (form_step b t a) = form_step b t a := by
  unfold form_step
  by_cases ht : t = ("form".data)
  · rw [if_pos ht, if_pos ht, fix_form_action_idem]
  · rw [if_neg ht, if_neg ht]

/-- Local success-and-idempotence of the srcset pass. -/
theorem srcset_step_establishes (b : Bool) (t : Str) {a a2 : Attrs}
    (h : srcset_step b t a = some a2) : srcset_step b t a2 = some a2 := by
  unfold srcset_step at *
  by_cases ht : t = ("source".data) ∧ b = true
  · rw [if_pos ht] at h ⊢
    exact fix_source_srcset_establishes h
  · rw [if_neg ht] at h ⊢

/-- The pointwise no-op predicate of a total pass. -/
def noop_pred (f : Bool → Str → Attrs → Attrs) (b : Bool) (t : Str) (a : Attrs) : Bool :=
  decide (f b t a = a)

/-- The pointwise successful no-op predicate of an optional pass. -/
def noopO_pred (f : Bool → Str → Attrs → Option Attrs) (b : Bool) (t : Str) (a : Attrs) :
    Bool :=
  decide (f b t a = some a)

/-- C2: the link/image normalizer is idempotent.  Whenever
_process_combined_html succeeds on a document, running it again on its
own output succeeds and returns that output unchanged: rewritten srcs
and srcset entries are absolute (so no host prefix is added a second
time), an href already rewritten to '#' stays '#', and rewriting a '#'
form action to '#' changes nothing. -/
theorem c2_normalizer_idempotent (doc out : List Node)
    (h : process_combined_html doc = some out) :
    process_combined_html out = some out := by
  unfold process_combined_html at h
  rcases hsrc : tmapO_list srcset_step false (tmap_list img_step false doc) with _ | m2
  · rw [hsrc] at h; exact absurd h (by simp)
  · rw [hsrc] at h
    simp only [Option.some.injEq] at h
    have e1 : every_attrs_list (noop_pred img_step) false
        (tmap_list img_step false doc) = true :=
      tmap_list_establish img_step (noop_pred img_step)
        (fun b t a => decide_eq_true (img_step_establishes b t a)) false doc
    have e2 : every_attrs_list (noop_pred img_step) false m2 = true :=
      tmapO_list_preserve srcset_step (noop_pred img_step)
        (fun b t a a2 hp hs => decide_eq_true
          (noop_cross_srcset (fun b t a ht => img_step_ne b ht a) (by decide)
            b t a a2 (of_decide_eq_true hp) hs))
        false _ m2 hsrc e1
    have e3 : every_attrs_list (noop_pred img_step) false
        (tmap_list link_step false m2) = true :=
      tmap_list_preserve link_step (noop_pred img_step)
        (fun b t a hp => decide_eq_true
          (noop_cross_total (fun b t a ht => img_step_ne b ht a)
            (fun b t a ht => link_step_ne b ht a) (by decide) b t a
            (of_decide_eq_true hp)))
        false _ e2
    have e4 : every_attrs_list (noop_pred img_step) false out = true := by
      rw [← h]
      exact tmap_list_preserve form_step (noop_pred img_step)
        (fun b t a hp => decide_eq_true
          (noop_cross_total (fun b t a ht => img_step_ne b ht a)
            (fun b t a ht => form_step_ne b ht a) (by decide) b t a
            (of_decide_eq_true hp)))
        false _ e3
    have s2 : every_attrs_list (noopO_pred srcset_step) false m2 = true :=
      tmapO_list_establish srcset_step (noopO_pred srcset_step)
        (fun b t a a2 hs => decide_eq_true (srcset_step_establishes b t hs))
        false _ m2 hsrc
    have s3 : every_attrs_list (noopO_pred srcset_step) false
        (tmap_list link_step false m2) = true :=
      tmap_list_preserve link_step (noopO_pred srcset_step)
        (fun b t a hp => decide_eq_true
          (srcset_noop_cross_total (fun b t a ht => link_step_ne b ht a) (by decide)
            b t a (of_decide_eq_true hp)))
        false _ s2
    have s4 : every_attrs_list (noopO_pred srcset_step) false out = true := by
      rw [← h]
      exact tmap_list_preserve form_step (noopO_pred srcset_step)
        (fun b t a hp => decide_eq_true
          (srcset_noop_cross_total (fun b t a ht => form_step_ne b ht a) (by decide)
            b t a (of_decide_eq_true hp)))
        false _ s3
    have l3 : every_attrs_list (noop_pred link_step) false
        (tmap_list link_step false m2) = true :=
      tmap_list_establish link_step (noop_pred link_step)
        (fun b t a => decide_eq_true (link_step_establishes b t a)) false _
    have l4 : every_attrs_list (noop_pred link_step) false out = true := by
      rw [← h]
      exact tmap_list_preserve form_step (noop_pred link_step)
        (fun b t a hp => decide_eq_true
          (noop_cross_total (fun b t a ht => link_step_ne b ht a)
            (fun b t a ht => form_step_ne b ht a) (by decide) b t a
            (of_decide_eq_true hp)))
        false _ l3
    have f4 : every_attrs_list (noop_pred form_step) false out = true := by
      rw [← h]
      exact tmap_list_establish form_step (noop_pred form_step)
        (fun b t a => decide_eq_true (form_step_establishes b t a)) false _
    have himg : tmap_list img_step false out = out :=
      tmap_list_noop img_step (noop_pred img_step)
        (fun b t a hp => of_decide_eq_true hp) false out e4
    have hsrc2 : tmapO_list srcset_step false out = some out :=
      tmapO_list_noop srcset_step (noopO_pred srcset_step)
        (fun b t a hp => of_decide_eq_true hp) false out s4
    have hlink : tmap_list link_step false out = out :=
      tmap_list_noop link_step (noop_pred link_step)
        (fun b t a hp => of_decide_eq_true hp) false out l4
    have hform : tmap_list form_step false out = out :=
      tmap_list_noop form_step (noop_pred form_step)
        (fun b t a hp => of_decide_eq_true hp) false out f4
    unfold process_combined_html
    rw [himg, hsrc2]
    show some (tmap_list form_step false (tmap_list link_step false out)) = some out
    rw [hlink, hform]

/-- Concrete document for the C2 witness. -/
def c2_doc : List Node := [
  .elem ("img".data) [(("src".data), ("/a.png".data))] [],
  .elem ("picture".data) []
    [.elem ("source".data) [(("srcset".data), ("b.png 1x".data))] []],
  .elem ("a".data) [(("href".data), ("https://x.com/".data))] [],
  .elem ("form".data) [(("action".data), ("/go".data))] []]

/-- The normalized form of the witness document. -/
def c2_out : List Node := [
  .elem ("img".data) [(("src".data), ("https://www.bu.edu/a.png".data))] [],
  .elem ("picture".data) []
    [.elem ("source".data) [(("srcset".data), ("https://www.bu.edu/b.png 1x".data))] []],
  .elem ("a".data) [(("href".data), ("#".data))] [],
  .elem ("form".data) [(("action".data), ("#".data))] []]

/-- Witness for C2: re-running the normalizer on its own concrete output
returns that output. -/
theorem c2_normalizer_idempotent_witness :
    process_combined_html c2_out = some c2_out :=
  c2_normalizer_idempotent c2_doc c2_out (by rfl)

/-- C7 counterexample: the claim states that a protocol-relative image
src '//host/path' is rewritten by prefixing 'https:', yielding
'https://host/path'.  The final-pass normalizer instead treats it as
root-relative and prefixes the fallback origin, yielding
'https://www.bu.edu//host/path'. -/
theorem c7_counterexample :
    process_combined_html
        [.elem ("img".data) [(("src".data), ("//cdn.example.com/a.png".data))] []]
      = some [.elem ("img".data)
          [(("src".data), ("https://www.bu.edu//cdn.example.com/a.png".data))] []] ∧
      ¬ ("https://www.bu.edu//cdn.example.com/a.png".data
          = ("https:".data) ++ ("//cdn.example.com/a.png".data)) :=
  ⟨rfl, by decide⟩

/-- A string that splits trivially on a separator it does not contain. -/
theorem splitOnChar_eq_self {c : Char} :
    ∀ {s : Str}, s.contains c = false → splitOnChar c s = [s] := by
  intro s
  induction s with
  | nil => intro _; rfl
  | cons x rest ih =>
    intro h
    have hx : ¬ x = c := by
      intro hxc
      subst hxc
      simp [List.contains_cons] at h
    have hrest : rest.contains c = false := by
      cases hrc : rest.contains c with
      | false => rfl
      | true =>
        simp only [List.contains_cons, hrc, Bool.or_true] at h
        exact absurd h (by simp)
    unfold splitOnChar
    rw [if_neg hx]
    simp only [ih hrest]

theorem starts_with_slash_shape {s : Str} (h : starts_with ("//".data) s = true) :
    ∃ t, s = '/' :: '/' :: t := by
  rw [starts_with, List.isPrefixOf_iff_prefix] at h
  obtain ⟨t, ht⟩ := h
  exact ⟨t, ht.symm⟩

/-- Composition helpers for evaluating the passes on small documents. -/
theorem tmap_list_cons_eq (f : Bool → Str → Attrs → Attrs) (b : Bool) (n : Node)
    (ns : List Node) :
    tmap_list f b (n :: ns) = tmap_node f b n :: tmap_list f b ns := rfl

theorem tmap_node_elem_eq (f : Bool → Str → Attrs → Attrs) (b : Bool) (t : Str)
    (a : Attrs) (cs : List Node) :
    tmap_node f b (.elem t a cs)
      = .elem t (f b t a) (tmap_list f (b || t == ("picture".data)) cs) := rfl

theorem tmapO_node_elem_eq {f : Bool → Str → Attrs → Option Attrs} {b : Bool} {t : Str}
    {a a2 : Attrs} {cs cs2 : List Node}
    (ha : f b t a = some a2)
    (hcs : tmapO_list f (b || t == ("picture".data)) cs = some cs2) :
    tmapO_node f b (.elem t a cs) = some (.elem t a2 cs2) := by
  unfold tmapO_node
  rw [ha, hcs]

theorem tmapO_list_cons_eq {f : Bool → Str → Attrs → Option Attrs} {b : Bool} {n n2 : Node}
    {ns ns2 : List Node}
    (hn : tmapO_node f b n = some n2)
    (hns : tmapO_list f b ns = some ns2) :
    tmapO_list f b (n :: ns) = some (n2 :: ns2) := by
  unfold tmapO_list
  rw [hn, hns]

theorem process_combined_html_eq {doc d2 : List Node}
    (h : tmapO_list srcset_step false (tmap_list img_step false doc) = some d2) :
    process_combined_html doc
      = some (tmap_list form_step false (tmap_list link_step false d2)) := by
  unfold process_combined_html
  rw [h]

/-- C7 amended: in the final assembled-document pass (and in the
whole-page pass when no origin URL is supplied, which has the same
branches), a protocol-relative image src '//host/path' — and a
single-entry srcset of the same shape — is caught by the root-relative
branch and prefixed with the fallback origin, yielding
'https://www.bu.edu//host/path' rather than 'https://host/path';
resolution to 'https://host/path' happens only in the whole-page pass
with a known origin URL, via the external urljoin. -/
theorem c7_protocol_relative_gets_bu_prefix (a asrc : Attrs) (s ss : Str)
    (hsrc : getAttrD a ("src".data) = s)
    (hpr : starts_with ("//".data) s = true)
    (hss : getAttrD asrc ("srcset".data) = ss)
    (hpr2 : starts_with ("//".data) ss = true)
    (hnc : ss.contains ',' = false)
    (hnsp : ss.contains ' ' = false)
    (hstrip : pstrip ss = ss) :
    process_combined_html [.elem ("img".data) a []]
      = some [.elem ("img".data) (setAttr a ("src".data) (bu_host ++ s)) []] ∧
    process_combined_html [.elem ("picture".data) [] [.elem ("source".data) asrc []]]
      = some [.elem ("picture".data) []
          [.elem ("source".data) (setAttr asrc ("srcset".data) (bu_host ++ ss)) []]] := by
  obtain ⟨t, hts⟩ := starts_with_slash_shape hpr
  obtain ⟨t2, hts2⟩ := starts_with_slash_shape hpr2
  have hfiximg : fix_img_src a = setAttr a ("src".data) (bu_host ++ s) := by
    unfold fix_img_src
    rw [hsrc, hts]
    rfl
  have hitem : fix_srcset_item ss = some (bu_host ++ ss) := by
    unfold fix_srcset_item
    rw [hnsp, if_neg (by simp), hstrip]
    unfold fix_url
    rw [hts2]
    rfl
  have hmap : mapO fix_srcset_item [ss] = some [bu_host ++ ss] := by
    unfold mapO
    rw [hitem]
    rfl
  have hcond : (!(ss.isEmpty) && !starts_with ("http".data) ss) = true := by
    rw [hts2]
    rfl
  have hfixss : fix_source_srcset asrc
      = some (setAttr asrc ("srcset".data) (bu_host ++ ss)) := by
    unfold fix_source_srcset
    rw [hss, if_pos hcond, splitOnChar_eq_self hnc, hmap]
    rfl
  have p1 : tmap_list img_step false [Node.elem ("img".data) a []]
      = [Node.elem ("img".data) (setAttr a ("src".data) (bu_host ++ s)) []] := by
    rw [tmap_list_cons_eq, tmap_node_elem_eq]
    rw [show img_step false ("img".data) a = fix_img_src a from by
      unfold img_step; rw [if_pos rfl]]
    rw [hfiximg]
    rfl
  have p2 : tmapO_list srcset_step false
      [Node.elem ("img".data) (setAttr a ("src".data) (bu_host ++ s)) []]
      = some [Node.elem ("img".data) (setAttr a ("src".data) (bu_host ++ s)) []] :=
    tmapO_list_cons_eq
      (tmapO_node_elem_eq (srcset_step_ne false (by simp) _) rfl) rfl
  have p3 : tmap_list link_step false
      [Node.elem ("img".data) (setAttr a ("src".data) (bu_host ++ s)) []]
      = [Node.elem ("img".data) (setAttr a ("src".data) (bu_host ++ s)) []] := by
    rw [tmap_list_cons_eq, tmap_node_elem_eq, link_step_ne false (by decide)]
    rfl
  have p4 : tmap_list form_step false
      [Node.elem ("img".data) (setAttr a ("src".data) (bu_host ++ s)) []]
      = [Node.elem ("img".data) (setAttr a ("src".data) (bu_host ++ s)) []] := by
    rw [tmap_list_cons_eq, tmap_node_elem_eq, form_step_ne false (by decide)]
    rfl
  have q1 : tmap_list img_step false
      [Node.elem ("picture".data) [] [Node.elem ("source".data) asrc []]]
      = [Node.elem ("picture".data) [] [Node.elem ("source".data) asrc []]] := by
    rw [tmap_list_cons_eq, tmap_node_elem_eq, img_step_ne false (by decide),
      tmap_list_cons_eq, tmap_node_elem_eq, img_step_ne _ (by decide)]
    rfl
  have q2node : tmapO_node srcset_step false
      (Node.elem ("picture".data) [] [Node.elem ("source".data) asrc []])
      = some (Node.elem ("picture".data) []
          [Node.elem ("source".data) (setAttr asrc ("srcset".data) (bu_host ++ ss)) []]) := by
    refine tmapO_node_elem_eq (srcset_step_ne false (by simp) _) ?_
    rw [show (false || (("picture".data) == ("picture".data))) = true from rfl]
    refine tmapO_list_cons_eq (tmapO_node_elem_eq ?_ rfl) rfl
    unfold srcset_step
    rw [if_pos ⟨rfl, rfl⟩]
    exact hfixss
  have q3 : tmap_list link_step false
      [Node.elem ("picture".data) []
        [Node.elem ("source".data) (setAttr asrc ("srcset".data) (bu_host ++ ss)) []]]
      = [Node.elem ("picture".data) []
          [Node.elem ("source".data) (setAttr asrc ("srcset".data) (bu_host ++ ss)) []]] := by
    rw [tmap_list_cons_eq, tmap_node_elem_eq, link_step_ne false (by decide),
      tmap_list_cons_eq, tmap_node_elem_eq, link_step_ne _ (by decide)]
    rfl
  have q4 : tmap_list form_step false
      [Node.elem ("picture".data) []
        [Node.elem ("source".data) (setAttr asrc ("srcset".data) (bu_host ++ ss)) []]]
      = [Node.elem ("picture".data) []
          [Node.elem ("source".data) (setAttr asrc ("srcset".data) (bu_host ++ ss)) []]] := by
    rw [tmap_list_cons_eq, tmap_node_elem_eq, form_step_ne false (by decide),
      tmap_list_cons_eq, tmap_node_elem_eq, form_step_ne _ (by decide)]
    rfl
  constructor
  · rw [process_combined_html_eq (by rw [p1]; exact p2), p3, p4]
  · rw [process_combined_html_eq (by rw [q1]; exact tmapO_list_cons_eq q2node rfl),
      q3, q4]

/-- Witness for C7 amended at a concrete protocol-relative URL. -/
theorem c7_protocol_relative_gets_bu_prefix_witness :
    process_combined_html
        [.elem ("img".data) [(("src".data), ("//h/p.png".data))] []]
      = some [.elem ("img".data)
          (setAttr [(("src".data), ("//h/p.png".data))] ("src".data)
            (bu_host ++ ("//h/p.png".data))) []] ∧
    process_combined_html
        [.elem ("picture".data) []
          [.elem ("source".data) [(("srcset".data), ("//h/p.png".data))] []]]
      = some [.elem ("picture".data) []
          [.elem ("source".data)
            (setAttr [(("srcset".data), ("//h/p.png".data))] ("srcset".data)
              (bu_host ++ ("//h/p.png".data))) []]] :=
  c7_protocol_relative_gets_bu_prefix
    [(("src".data), ("//h/p.png".data))] [(("srcset".data), ("//h/p.png".data))]
    ("//h/p.png".data) ("//h/p.png".data)
    (by rfl) (by rfl) (by rfl) (by rfl) (by rfl) (by rfl) (by rfl)

/- ------------------------------------------------------------------
   section_processor.py : per-section records (process_section,
   process_entire_site_conservatively)
   ------------------------------------------------------------------ -/

/-- One per-section record (a Python dict in the source; the method and
error fields model the presence or absence of those keys). -/
structure SectionRecord where
  html : Str
  css : Str
  section_name : Str
  description : Str
  method : Option Str
  error : Option Str

/-- len(soup.find_all('img')) on a fragment. -/
def count_imgs (ns : List Node) : Nat :=
  ((all_elems_list ns).filter fun e => e.1 == ("img".data)).length

/-- The post-response decision of process_section (lines 440-468): the
fragments are handed over both as raw strings and in the parsed form the
external BeautifulSoup parser produces from them.  The float comparison
len(html_code) < len(section.html) * 0.5 is exact in binary floating
point and is written 2*len(html_code) < len(section.html). -/
def process_section_decision (sec : WebsiteSection) (secNodes : List Node)
    (html_code : Str) (html_code_nodes : List Node) (css_code : Str) : SectionRecord :=
  if count_imgs html_code_nodes < count_imgs secNodes ∨
      2 * html_code.length < sec.html.length then
    ⟨fix_links_only secNodes, sec.css, sec.name, sec.description,
      some ("original_with_fixes".data), none⟩
  else
    ⟨html_code, css_code, sec.name, sec.description, some ("ai_generated".data), none⟩

/-- The record built by the exception handler of process_section (lines
470-478): the original fragment and css, an error field, and no method
key at all. -/
def process_section_error (sec : WebsiteSection) (msg : Str) : SectionRecord :=
  ⟨sec.html, sec.css, sec.name, sec.description, none, some msg⟩

/-- The fixed document skeleton of process_entire_site_conservatively. -/
def complete_html_doc (css fixed_html : Str) : Str :=
  ("<!DOCTYPE html>\n<html lang=\"en\">\n<head>\n    <meta charset=\"UTF-8\">\n    <meta name=\"viewport\" content=\"width=device-width, initial-scale=1.0\">\n    <title>Recreated Website</title>\n    <style>\n".data)
    ++ css ++ ("\n    </style>\n</head>\n<body>\n".data)
    ++ fixed_html ++ ("\n</body>\n</html>".data)

/-- process_entire_site_conservatively (the branch without an origin
URL; with one, the img pass delegates to the external urljoin): fix
images, srcsets, links and forms over the whole page, wrap the result in
the skeleton, and emit one entire-site record with method
'conservative'. -/
def process_entire_site_conservatively (doc : List Node) (full_css : Str) :
    Option (Str × List SectionRecord) :=
  match tmapO_list srcset_step false (tmap_list cons_img_step false doc) with
  | none => none
  | some d2 =>
    some (complete_html_doc full_css
        (render_list (tmap_list form_step false (tmap_list link_step false d2))),
      [⟨render_list (tmap_list form_step false (tmap_list link_step false d2)),
        full_css, "entire-site".data,
        "Entire website processed conservatively".data,
        some ("conservative".data), none⟩])

/-- C5: the fidelity check.  When the rewritten fragment has fewer img
elements than the original, or its length is under half the original's
length, process_section returns the original fragment with only
link/form normalization and the original section CSS under method
'original_with_fixes'; otherwise it returns the rewritten fragment under
method 'ai_generated'. -/
theorem c5_fidelity_check (sec : WebsiteSection) (secNodes : List Node)
    (html_code : Str) (html_code_nodes : List Node) (css_code : Str) :
    (count_imgs html_code_nodes < count_imgs secNodes ∨
        2 * html_code.length < sec.html.length →
      process_section_decision sec secNodes html_code html_code_nodes css_code
        = ⟨fix_links_only secNodes, sec.css, sec.name, sec.description,
            some ("original_with_fixes".data), none⟩) ∧
    (¬ (count_imgs html_code_nodes < count_imgs secNodes ∨
        2 * html_code.length < sec.html.length) →
      process_section_decision sec secNodes html_code html_code_nodes css_code
        = ⟨html_code, css_code, sec.name, sec.description,
            some ("ai_generated".data), none⟩) := by
  constructor
  · intro h
    unfold process_section_decision
    rw [if_pos h]
  · intro h
    unfold process_section_decision
    rw [if_neg h]

/-- Concrete section for the C5 witness: two images in the original. -/
def c5_orig : List Node :=
  [.elem ("div".data) []
    [.elem ("img".data) [(("src".data), ("a.png".data))] [],
     .elem ("img".data) [(("src".data), ("b.png".data))] []]]

/-- A rewritten fragment that lost both images. -/
def c5_ai : List Node := [.elem ("div".data) [] [.text ("gone".data)]]

def c5_sec : WebsiteSection :=
  ⟨"hero".data, render_list c5_orig, "c".data, "d".data, 2⟩

/-- Witness for C5: a rewrite with zero img tags where the original had
two falls back to the original fragment. -/
theorem c5_fidelity_check_witness :
    process_section_decision c5_sec c5_orig (render_list c5_ai) c5_ai ("x".data)
      = ⟨fix_links_only c5_orig, c5_sec.css, c5_sec.name, c5_sec.description,
          some ("original_with_fixes".data), none⟩ :=
  (c5_fidelity_check c5_sec c5_orig (render_list c5_ai) c5_ai ("x".data)).1
    (Or.inl (by decide))

/-- C9 counterexample: the claim states every per-section record carries
a method in {ai_generated, original_with_fixes, conservative}, including
records produced when the generative call fails.  The exception handler
of process_section builds its record without any method key. -/
theorem c9_counterexample :
    (process_section_error
        ⟨"header".data, "<p>x</p>".data, "c".data, "d".data, 2⟩
        ("boom".data)).method = none := rfl

/-- C9 amended: records from the decision path carry method
'original_with_fixes' or 'ai_generated'; the conservative path's single
record carries method 'conservative'; but the record built when the
generative-model call for a section fails carries no method field at all
(an error field instead). -/
theorem c9_method_values :
    (∀ (sec : WebsiteSection) (secNodes : List Node) (hc : Str) (hn : List Node)
        (cc : Str),
      (process_section_decision sec secNodes hc hn cc).method
          = some ("original_with_fixes".data) ∨
        (process_section_decision sec secNodes hc hn cc).method
          = some ("ai_generated".data)) ∧
    (∀ (doc : List Node) (css : Str) (res : Str × List SectionRecord),
      process_entire_site_conservatively doc css = some res →
      ∀ r ∈ res.2, r.method = some ("conservative".data)) ∧
    (∀ (sec : WebsiteSection) (msg : Str),
      (process_section_error sec msg).method = none) := by
  refine ⟨?_, ?_, ?_⟩
  · intro sec sN hc hn cc
    unfold process_section_decision
    split
    · exact Or.inl rfl
    · exact Or.inr rfl
  · intro doc css res h r hr
    unfold process_entire_site_conservatively at h
    split at h
    · exact absurd h (by simp)
    · simp only [Option.some.injEq] at h
      subst h
      simp only [List.mem_singleton] at hr
      subst hr
      rfl
  · intro sec msg
    rfl

/-- Concrete document for the C9 witness. -/
def c9_doc : List Node :=
  [.elem ("body".data) [] [.elem ("img".data) [(("src".data), ("x.png".data))] []]]

/-- The fixed markup of the witness document. -/
def c9_fixed : List Node :=
  tmap_list form_step false
    (tmap_list link_step false (tmap_list cons_img_step false c9_doc))

/-- Witness for C9 amended: the conservative record of a concrete clone
carries method 'conservative'. -/
theorem c9_method_values_witness :
    (⟨render_list c9_fixed, ("c".data), "entire-site".data,
      "Entire website processed conservatively".data,
      some ("conservative".data), none⟩ : SectionRecord).method
      = some ("conservative".data) :=
  c9_method_values.2.1 c9_doc ("c".data)
    (complete_html_doc ("c".data) (render_list c9_fixed),
      [⟨render_list c9_fixed, ("c".data), "entire-site".data,
        "Entire website processed conservatively".data,
        some ("conservative".data), none⟩])
    (by rfl) _ (by exact List.mem_singleton.mpr rfl)
